import Mathlib

/-!
# shopp-backend: a model of `index.js`

The Express handlers of `index.js` are embedded as pure functions over the two
MongoDB collections they use (`Users`, `Product`), each held as the list of its
documents in insertion order.

Modelling conventions, all visible in the definitions below:

* A JavaScript number that holds an integer is the `Int` of its value; `NaN` is a
  separate value.  The source adds and subtracts in IEEE double precision: `roundDouble`
  rounds the exact result to the nearest double, ties to the even significand, so sums
  are exact up to magnitude 2^53 and rounded beyond it.
* `cartData` is the list of its own properties.  An `itemId` is an integer slot; its
  property key is its decimal string, so distinct integers are distinct keys.
* `doc.save()` on a new document inserts it.  On a loaded document it writes the paths
  that Mongoose has recorded as modified and nothing else.  The schema declares
  `cartData: Object`, an untyped (Mixed) path: an assignment into the object held there
  is recorded only by `markModified`, which the source never calls, so the cart handlers
  save with no modified path.  The commented-out earlier handlers, which write the cart
  with `findOneAndUpdate`, are embedded beside them as `addtocartLegacy` and
  `removefromcartLegacy`.
* `bcrypt` and `jsonwebtoken` are parameters (`Env`); the values that the source draws
  from its environment (the fresh `_id`, the salt, the clock) are inputs of the request.
* A handler that throws before it answers (property access on `null` or `undefined`)
  yields `Outcome.threw`; in that case nothing has been saved.
-/

namespace Shopp

/-! ## JavaScript values held in a cart -/

/-- A number stored in `cartData`: an integer, or `NaN`. -/
inductive JSNum where
  | int (n : Int)
  | nan
  deriving DecidableEq, Repr

/-- The own properties of a `cartData` object: key (slot) and stored number. -/
abbrev CartData := List (Int × JSNum)

/-- Property read `cart[k]`; `none` is `undefined` (no own property `k`). -/
def cartGet : CartData → Int → Option JSNum
  | [], _ => none
  | (k0, v) :: rest, k => if k0 = k then some v else cartGet rest k

/-- Property write `cart[k] = v`: overwrite the own property or create it. -/
def cartSet : CartData → Int → JSNum → CartData
  | [], k, v => [(k, v)]
  | (k0, v0) :: rest, k, v => if k0 = k then (k0, v) :: rest else (k0, v0) :: cartSet rest k v

/-- The least `e`, counted up from the given one, with `a < 2 ^ (53 + e)`: the number of low
bits that a 53-bit significand cannot hold.  The first argument after `a` bounds the search. -/
def shiftFor (a : Nat) : Nat → Nat → Nat
  | 0, e => e
  | fuel + 1, e => if a < 2 ^ (53 + e) then e else shiftFor a fuel (e + 1)

/-- The double nearest to the integer `x`, ties to the even significand (IEEE 754
round-to-nearest-even), for magnitudes below 2^1024: integers of magnitude up to 2^53 are
kept, larger ones are rounded to a multiple of `2 ^ e`. -/
def roundDouble (x : Int) : Int :=
  let a := x.natAbs
  let e := shiftFor a 971 0
  let q := a / 2 ^ e
  let r := a % 2 ^ e
  let m := if 2 ^ e < 2 * r ∨ (2 * r = 2 ^ e ∧ q % 2 = 1) then q + 1 else q
  Int.sign x * ((m * 2 ^ e : Nat) : Int)

/-- The value of `x + 1` for `x` read from a cart: `undefined + 1` and `NaN + 1` are `NaN`,
and a number is added to in double precision. -/
def plusOne : Option JSNum → JSNum
  | some (.int n) => .int (roundDouble (n + 1))
  | some .nan => .nan
  | none => .nan

/-- The value of `x - 1` for `x` read from a cart, in double precision. -/
def minusOne : Option JSNum → JSNum
  | some (.int n) => .int (roundDouble (n - 1))
  | some .nan => .nan
  | none => .nan

/-- The test `x > 0` for `x` read from a cart: false for `undefined` and for `NaN`. -/
def gtZero : Option JSNum → Bool
  | some (.int n) => decide (0 < n)
  | some .nan => false
  | none => false

/-- The loop `for (let i = 0; i < 300; i++) cart[i] = 0` run on `const cart = {}`. -/
def initCart : CartData :=
  (List.range 300).foldl (fun cart (i : Nat) => cartSet cart (i : Int) (.int 0)) []

/-! ## Documents and collections -/

/-- Mongo `_id` of a user document. -/
abbrev ObjectId := Nat

/-- A document of the `Users` collection. -/
structure User where
  _id : ObjectId
  name : String
  email : String
  password : String
  cartData : CartData
  date : Nat
  deriving DecidableEq, Repr

/-- The `Users` collection, in insertion order. -/
abbrev Store := List User

/-- Lookup `Users.findOne({ email })`. -/
def findOne (store : Store) (email : String) : Option User :=
  store.find? (fun u => decide (u.email = email))

/-- Lookup `Users.findById(id)`. -/
def findById (store : Store) (id : ObjectId) : Option User :=
  store.find? (fun u => decide (u._id = id))

/-- Call `user.save()` on a newly built document: insert it. -/
def saveNew (store : Store) (doc : User) : Store :=
  store ++ [doc]

/-- The paths of the `Users` schema. -/
inductive Path where
  | name
  | email
  | password
  | cartData
  | date
  deriving DecidableEq, Repr

/-- The stored document after an update that sets the paths in `modified` to the values
they have in `doc`. -/
def mergePaths (stored doc : User) (modified : List Path) : User :=
  { _id := stored._id
    name := if Path.name ∈ modified then doc.name else stored.name
    email := if Path.email ∈ modified then doc.email else stored.email
    password := if Path.password ∈ modified then doc.password else stored.password
    cartData := if Path.cartData ∈ modified then doc.cartData else stored.cartData
    date := if Path.date ∈ modified then doc.date else stored.date }

/-- Call `userData.save()` on a loaded document: Mongoose updates the stored document with
its `_id`, writing the paths recorded as modified (`modified`) and no other. -/
def saveLoaded : Store → User → List Path → Store
  | [], _, _ => []
  | u :: rest, doc, modified =>
    if u._id = doc._id then mergePaths u doc modified :: rest
    else u :: saveLoaded rest doc modified

/-- Call `Users.findOneAndUpdate({ _id: id }, { cartData: cart })`, used by the
commented-out handlers: set `cartData` of the first document with this `_id`. -/
def findOneAndUpdateCart : Store → ObjectId → CartData → Store
  | [], _, _ => []
  | u :: rest, id, cart =>
    if u._id = id then { u with cartData := cart } :: rest
    else u :: findOneAndUpdateCart rest id cart

/-! ## Libraries and responses -/

/-- The object a token carries under `user`; `id` is `none` when the object has no `id`. -/
structure UserRef where
  id : Option ObjectId
  deriving DecidableEq, Repr

/-- A decoded token payload; `user` is `none` when the payload has no `user` member. -/
structure Payload where
  user : Option UserRef
  deriving DecidableEq, Repr

/-- The two libraries the handlers call.  `verify` returns `none` where `jwt.verify` throws. -/
structure Env where
  hash : String → String → String
  compare : String → String → Bool
  sign : Payload → String → String
  verify : String → String → Option Payload

/-- The signing secret written in the source. -/
def secret : String := "secret_ecom"

/-- The payload `{ user: { id } }` that signup and login sign. -/
def userPayload (id : ObjectId) : Payload :=
  ⟨some ⟨some id⟩⟩

/-- Response bodies of the user and cart endpoints: `token t` is `{ success: true, token }`,
`failError msg` is `{ success: false, error }`, `failErrors msg` is
`{ success: false, errors }`, `errors msg` is `{ errors }`, `text` is a plain string and
`cart` is the cart mapping sent by get-cart. -/
inductive Body where
  | token (t : String)
  | failError (msg : String)
  | failErrors (msg : String)
  | errors (msg : String)
  | text (s : String)
  | cart (c : CartData)
  deriving DecidableEq, Repr

/-- An HTTP answer: status code and body. -/
structure Response where
  status : Nat
  body : Body
  deriving DecidableEq, Repr

/-- What a handler did: it answered, or it threw before answering. -/
inductive Outcome where
  | responded (r : Response)
  | threw
  deriving DecidableEq, Repr

/-- The body of a signup request, with the values the handler draws from its environment. -/
structure SignupReq where
  username : String
  email : String
  password : String
  newId : ObjectId
  salt : String
  now : Nat
  deriving DecidableEq, Repr

/-! ## Handlers -/

/-- Handler `app.post("/signup")`. -/
def signup (env : Env) (store : Store) (req : SignupReq) : Store × Response :=
  match findOne store req.email with
  | some _ => (store, ⟨400, .failError "Email already registered"⟩)
  | none =>
    let hashedPassword := env.hash req.password req.salt
    let cart := initCart
    let user : User := ⟨req.newId, req.username, req.email, hashedPassword, cart, req.now⟩
    (saveNew store user, ⟨200, .token (env.sign (userPayload user._id) secret)⟩)

/-- Handler `app.post("/login")`; it writes nothing. -/
def login (env : Env) (store : Store) (email password : String) : Response :=
  match findOne store email with
  | none => ⟨200, .failErrors "Invalid Email"⟩
  | some user =>
    if env.compare password user.password then
      ⟨200, .token (env.sign (userPayload user._id) secret)⟩
    else ⟨200, .failErrors "Invalid Password"⟩

/-- What the middleware did: it answered itself, or it called `next()` with `req.user` set
(`none` is `undefined`). -/
inductive Gate where
  | respond (r : Response)
  | next (reqUser : Option UserRef)
  deriving DecidableEq, Repr

/-- Middleware `fetchUser`; `header` is `req.header("auth-token")`, `none` when absent.
The test `!token` holds for an absent header and for the empty string. -/
def fetchUser (env : Env) (header : Option String) : Gate :=
  match header with
  | none => .respond ⟨401, .errors "Please authenticate with a valid token"⟩
  | some token =>
    if token = "" then .respond ⟨401, .errors "Please authenticate with a valid token"⟩
    else
      match env.verify token secret with
      | some data => .next data.user
      | none => .respond ⟨401, .errors "Invalid token"⟩

/-- Lookup `Users.findById(req.user.id)`: `none` in the outer layer when `req.user.id`
throws, `none` in the inner layer when no document is found. -/
def loadUser (store : Store) (reqUser : Option UserRef) : Option (Option User) :=
  match reqUser with
  | none => none
  | some ref =>
    match ref.id with
    | none => some none
    | some id => some (findById store id)

/-- Handler body of `app.post("/addtocart")`, run after `fetchUser` called `next()`.
The statement `userData.cartData[req.body.itemId] += 1` changes the object in memory and
records no modified path, so `userData.save()` is given none. -/
def addtocart (store : Store) (reqUser : Option UserRef) (itemId : Int) : Store × Outcome :=
  match loadUser store reqUser with
  | some (some userData) =>
    let cart := cartSet userData.cartData itemId (plusOne (cartGet userData.cartData itemId))
    (saveLoaded store { userData with cartData := cart } [], .responded ⟨200, .text "Added"⟩)
  | _ => (store, .threw)

/-- Handler body of `app.post("/removefromcart")`, run after `fetchUser` called `next()`.
As in `addtocart`, the change to the cart is made in memory only and `userData.save()`
is given no modified path. -/
def removefromcart (store : Store) (reqUser : Option UserRef) (itemId : Int) : Store × Outcome :=
  match loadUser store reqUser with
  | some (some userData) =>
    let cart :=
      if gtZero (cartGet userData.cartData itemId) then
        cartSet userData.cartData itemId (minusOne (cartGet userData.cartData itemId))
      else userData.cartData
    (saveLoaded store { userData with cartData := cart } [], .responded ⟨200, .text "Removed"⟩)
  | _ => (store, .threw)

/-- The commented-out earlier `/addtocart` handler, run with `req.user.id = id`: it loads
the user with `Users.findOne({ _id: req.user.id })`, adds 1 in memory and writes the cart
back with `Users.findOneAndUpdate`. -/
def addtocartLegacy (store : Store) (id : ObjectId) (itemId : Int) : Store × Outcome :=
  match findById store id with
  | some userData =>
    let cart := cartSet userData.cartData itemId (plusOne (cartGet userData.cartData itemId))
    (findOneAndUpdateCart store id cart, .responded ⟨200, .text "Added"⟩)
  | none => (store, .threw)

/-- The commented-out earlier `/removefromcart` handler, run with `req.user.id = id`: as
the active one, but it writes the cart back with `Users.findOneAndUpdate`. -/
def removefromcartLegacy (store : Store) (id : ObjectId) (itemId : Int) : Store × Outcome :=
  match findById store id with
  | some userData =>
    let cart :=
      if gtZero (cartGet userData.cartData itemId) then
        cartSet userData.cartData itemId (minusOne (cartGet userData.cartData itemId))
      else userData.cartData
    (findOneAndUpdateCart store id cart, .responded ⟨200, .text "Removed"⟩)
  | none => (store, .threw)

/-- Handler body of `app.post("/getcart")`, run after `fetchUser` called `next()`. -/
def getcart (store : Store) (reqUser : Option UserRef) : Store × Outcome :=
  match loadUser store reqUser with
  | some (some userData) => (store, .responded ⟨200, .cart userData.cartData⟩)
  | _ => (store, .threw)

/-- A route `app.post(path, fetchUser, handler)`: the handler runs only if the
middleware called `next()`. -/
def guarded (env : Env) (header : Option String) (handler : Option UserRef → Store × Outcome)
    (store : Store) : Store × Outcome :=
  match fetchUser env header with
  | .respond r => (store, .responded r)
  | .next reqUser => handler reqUser

/-- A request to one of the user and cart endpoints. -/
inductive Request where
  | signup (req : SignupReq)
  | login (email password : String)
  | addtocart (header : Option String) (itemId : Int)
  | removefromcart (header : Option String) (itemId : Int)
  | getcart (header : Option String)
  deriving DecidableEq, Repr

/-- The server handling one request: the new collection and the outcome. -/
def step (env : Env) (store : Store) : Request → Store × Outcome
  | .signup req => let r := signup env store req; (r.1, .responded r.2)
  | .login email password => (store, .responded (login env store email password))
  | .addtocart header itemId => guarded env header (fun u => addtocart store u itemId) store
  | .removefromcart header itemId =>
    guarded env header (fun u => removefromcart store u itemId) store
  | .getcart header => guarded env header (fun u => getcart store u) store

/-- The collection after a sequence of requests handled one after the other. -/
def run (env : Env) (store : Store) : List Request → Store
  | [] => store
  | r :: rs => run env (step env store r).1 rs

/-- Run `f` on the collection `n` times in a row. -/
def repeatOp (f : Store → Store) : Nat → Store → Store
  | 0, s => s
  | n + 1, s => repeatOp f n (f s)

/-! ## The product catalog -/

/-- A document of the `Product` collection. -/
structure Product where
  id : Int
  name : String
  image : String
  category : String
  new_price : Int
  old_price : Int
  date : Nat
  available : Bool
  deriving DecidableEq, Repr

/-- The body of an add-product request.  `id`, `date` and `available` are `none` when the
body has no such member; `now` is the clock read by the schema default. -/
structure ProductBody where
  id : Option Int
  name : String
  image : String
  category : String
  new_price : Int
  old_price : Int
  date : Option Nat
  available : Option Bool
  now : Nat
  deriving DecidableEq, Repr

/-- The answer `{ success, name }` of the catalog endpoints. -/
structure Ack where
  success : Bool
  name : String
  deriving DecidableEq, Repr

/-- The `Product` collection as `Product.find({})` returns it, in insertion order. -/
abbrev Catalog := List Product

/-- The expression `products.length ? products[products.length - 1].id + 1 : 1`, the sum
taken in double precision. -/
def nextId (products : Catalog) : Int :=
  match products.getLast? with
  | some last => roundDouble (last.id + 1)
  | none => 1

/-- The document `new Product({ id, ...req.body })`: members of the body come after `id`
in the literal and override it; absent `date` and `available` take the schema defaults. -/
def newProduct (id : Int) (body : ProductBody) : Product :=
  ⟨body.id.getD id, body.name, body.image, body.category, body.new_price, body.old_price,
    body.date.getD body.now, body.available.getD true⟩

/-- Handler `app.post("/addproduct")`. -/
def addproduct (products : Catalog) (body : ProductBody) : Catalog × Ack :=
  let id := nextId products
  let product := newProduct id body
  (products ++ [product], ⟨true, body.name⟩)

/-- Call `Product.findOneAndDelete({ id })`: delete the first document with this id. -/
def findOneAndDelete : Catalog → Int → Catalog
  | [], _ => []
  | p :: rest, id => if p.id = id then rest else p :: findOneAndDelete rest id

/-- Handler `app.post("/removeproduct")`. -/
def removeproduct (products : Catalog) (id : Int) (name : String) : Catalog × Ack :=
  (findOneAndDelete products id, ⟨true, name⟩)

/-- Handler `app.get("/allproducts")`. -/
def allproducts (products : Catalog) : List Product :=
  products

/-- A request that writes to the catalog. -/
inductive CatalogReq where
  | add (body : ProductBody)
  | remove (id : Int) (name : String)
  deriving DecidableEq, Repr

/-- The catalog after one request. -/
def catalogStep (products : Catalog) : CatalogReq → Catalog
  | .add body => (addproduct products body).1
  | .remove id name => (removeproduct products id name).1

/-- The catalog after a sequence of requests. -/
def catalogRun (products : Catalog) : List CatalogReq → Catalog
  | [] => products
  | r :: rs => catalogRun (catalogStep products r) rs

/-- The request carries no `id` member of its own (removals carry none to store). -/
def CatalogReq.plain : CatalogReq → Bool
  | .add body => body.id.isNone
  | .remove _ _ => true

/-! ## A small instance of the libraries, used to run the handlers on concrete requests -/

/-- A token is a tag for the key, a tag for the shape of the payload, and the id in unary. -/
def demoSign (p : Payload) (key : String) : String :=
  let tag := if key = secret then 'S' else 'X'
  match p.user with
  | none => String.mk [tag, 'n']
  | some ⟨none⟩ => String.mk [tag, 'u']
  | some ⟨some id⟩ => String.mk (tag :: 'i' :: List.replicate id 'x')

/-- Verification accepts exactly the tokens tagged for the key it is given. -/
def demoVerify (token key : String) : Option Payload :=
  match token.data with
  | [t, 'n'] => if t = (if key = secret then 'S' else 'X') then some ⟨none⟩ else none
  | [t, 'u'] => if t = (if key = secret then 'S' else 'X') then some ⟨some ⟨none⟩⟩ else none
  | t :: 'i' :: rest =>
    if t = (if key = secret then 'S' else 'X') ∧ rest = List.replicate rest.length 'x' then
      some ⟨some ⟨some rest.length⟩⟩
    else none
  | _ => none

/-- The instance: the hash keeps the password behind the salt and a separator. -/
def demoEnv : Env where
  hash := fun password salt => String.mk (salt.data ++ '$' :: password.data)
  compare := fun password hashed => decide (hashed.data.drop (hashed.data.length - password.data.length) = password.data)
  sign := demoSign
  verify := demoVerify

/-! ## Reading the collection as a client does -/

/-- Add-to-cart by the user `uid` on slot `s`, as a map on the collection. -/
def increment (uid : ObjectId) (s : Int) (store : Store) : Store :=
  (addtocart store (some ⟨some uid⟩) s).1

/-- Remove-from-cart by the user `uid` on slot `s`, as a map on the collection. -/
def decrement (uid : ObjectId) (s : Int) (store : Store) : Store :=
  (removefromcart store (some ⟨some uid⟩) s).1

/-- The value stored at slot `s` of the cart of user `uid`; `none` when nothing is stored. -/
def quantity (store : Store) (uid : ObjectId) (s : Int) : Option JSNum :=
  match findById store uid with
  | some u => cartGet u.cartData s
  | none => none

/-! ## Derived notions and the concrete data of the worked cases -/

/-- The cart that maps each of the slots `0 .. n-1` to zero, slots in increasing order. -/
def zeroCart (n : Nat) : CartData :=
  (List.range n).map (fun (i : Nat) => ((i : Int), JSNum.int 0))

/-- A stored user whose cart holds slot 5 with quantity 2 and slot 6 with quantity 0. -/
def bob : User := ⟨7, "bob", "b@x.com", "h", [(5, .int 2), (6, .int 0)], 0⟩

/-- A collection holding `bob` alone. -/
def bobStore : Store := [bob]

/-- The signup request of the scenario, with the id, salt and clock it is served with. -/
def aliceReq : SignupReq := ⟨"alice", "a@x.com", "pw123", 1, "salt", 0⟩

/-- Every value held in every cart of the collection is a non-negative number. -/
def StoreOK (store : Store) : Prop :=
  ∀ u ∈ store, ∀ e ∈ u.cartData, ∃ n : Int, 0 ≤ n ∧ e.2 = .int n

/-- The token that signup hands to `aliceReq` under the demo libraries. -/
def aliceToken : String := demoSign (userPayload 1) secret

/-- A signup followed by one add-to-cart on slot 300, a slot the new cart does not hold. -/
def outOfRangeTrace : List Request :=
  [.signup aliceReq, .addtocart (some aliceToken) 300]

/-- The document that the signup of `aliceReq` stores under the demo libraries. -/
def aliceStored : User :=
  ⟨1, "alice", "a@x.com", demoEnv.hash "pw123" "salt", initCart, 0⟩

/-- The scenario: signup, two add-to-cart and one remove-from-cart on slot 5. -/
def scenarioTrace : List Request :=
  [.signup aliceReq, .addtocart (some aliceToken) 5, .addtocart (some aliceToken) 5,
    .removefromcart (some aliceToken) 5]

/-- The relation between a stored document and the same document after a cart write by
user `uid` on slot `itemId`: a document of another user is the same, and so are the id,
name, email, password hash, date and every other slot of any document. -/
def Framed (uid : ObjectId) (itemId : Int) (u v : User) : Prop :=
  (u._id ≠ uid → v = u) ∧ v._id = u._id ∧ v.name = u.name ∧ v.email = u.email ∧
    v.password = u.password ∧ v.date = u.date ∧
    ∀ k : Int, k ≠ itemId → cartGet v.cartData k = cartGet u.cartData k

/-- The token of `bob` under the demo libraries. -/
def bobToken : String := demoSign (userPayload 7) secret

/-- A token signed with the server secret whose payload has no `user` member. -/
def bareToken : String := demoSign ⟨none⟩ secret

/-- An add-product body with the members the storefront sends: no `id` of its own. -/
def plainBody : ProductBody := ⟨none, "shirt", "img", "men", 10, 20, none, none, 0⟩

/-- An add-product body that carries an `id` member of its own. -/
def idBody (id : Int) : ProductBody := { plainBody with id := some id }

/-- The ids of a catalog, in store order. -/
def ids (products : Catalog) : List Int :=
  products.map (fun p => p.id)

/-- The ids never fall along the store order, and each lies between 1 and 2^53. -/
def Ordered (products : Catalog) : Prop :=
  (ids products).Pairwise (fun a b => a ≤ b) ∧
    ∀ a ∈ ids products, 1 ≤ a ∧ a ≤ 9007199254740992


/-! ## Lemmas on double arithmetic, carts and saving -/

theorem roundDouble_small (x : Int) (h : x.natAbs < 2 ^ 53) : roundDouble x = x := by
  have hs : shiftFor x.natAbs 971 0 = 0 := by
    show (if x.natAbs < 2 ^ (53 + 0) then 0 else shiftFor x.natAbs 970 (0 + 1)) = 0
    rw [if_pos h]
  have hm : x.natAbs % 1 = 0 := Nat.mod_one _
  simp only [roundDouble, hs, pow_zero, hm, Nat.div_one, Nat.mul_one, Nat.mul_zero]
  have hf : ¬ ((1 : Nat) < 0 ∨ (0 = 1 ∧ x.natAbs % 2 = 1)) := by omega
  rw [if_neg hf]
  exact Int.sign_mul_natAbs x

theorem roundDouble_exact (x : Int) (hlo : -9007199254740992 ≤ x)
    (hhi : x ≤ 9007199254740992) : roundDouble x = x := by
  have hp : (2 : Nat) ^ 53 = 9007199254740992 := by norm_num
  rcases Nat.lt_or_ge x.natAbs (2 ^ 53) with h1 | h1
  · exact roundDouble_small x h1
  · have h2 : x.natAbs = 9007199254740992 := by omega
    rcases Int.natAbs_eq x with h3 | h3
    · rw [h3, h2]; decide
    · rw [h3, h2]; decide

theorem roundDouble_past : roundDouble (9007199254740992 + 1) = 9007199254740992 := by
  decide

theorem findById_id {store : Store} {id : ObjectId} {u : User}
    (h : findById store id = some u) : u._id = id := by
  have := List.find?_some h
  simpa using this

theorem mergePaths_nil (stored doc : User) : mergePaths stored doc [] = stored := by
  cases stored
  simp [mergePaths]

theorem saveLoaded_nil (store : Store) (doc : User) : saveLoaded store doc [] = store := by
  induction store with
  | nil => rfl
  | cons x xs ih =>
    by_cases h : x._id = doc._id
    · simp [saveLoaded, h, mergePaths_nil]
    · simp [saveLoaded, h, ih]

theorem addtocart_store (store : Store) (reqUser : Option UserRef) (itemId : Int) :
    (addtocart store reqUser itemId).1 = store := by
  unfold addtocart
  split
  · exact saveLoaded_nil store _
  · rfl

theorem removefromcart_store (store : Store) (reqUser : Option UserRef) (itemId : Int) :
    (removefromcart store reqUser itemId).1 = store := by
  unfold removefromcart
  split
  · exact saveLoaded_nil store _
  · rfl

theorem getcart_store (store : Store) (reqUser : Option UserRef) :
    (getcart store reqUser).1 = store := by
  unfold getcart
  split <;> rfl

theorem increment_eq (uid : ObjectId) (s : Int) (store : Store) :
    increment uid s store = store :=
  addtocart_store store _ s

theorem decrement_eq (uid : ObjectId) (s : Int) (store : Store) :
    decrement uid s store = store :=
  removefromcart_store store _ s

theorem repeatOp_fixed (f : Store → Store) (hf : ∀ store, f store = store) (n : Nat) :
    ∀ store : Store, repeatOp f n store = store := by
  induction n with
  | zero => intro store; rfl
  | succ n ih => intro store; simp [repeatOp, hf, ih]

theorem guarded_store (env : Env) (header : Option String)
    (handler : Option UserRef → Store × Outcome) (store : Store)
    (hh : ∀ u, (handler u).1 = store) : (guarded env header handler store).1 = store := by
  unfold guarded
  split
  · rfl
  · exact hh _

theorem step_cart_store (env : Env) (store : Store) (header : Option String) (itemId : Int) :
    (step env store (.addtocart header itemId)).1 = store ∧
    (step env store (.removefromcart header itemId)).1 = store ∧
    (step env store (.getcart header)).1 = store :=
  ⟨guarded_store env header _ store (fun u => addtocart_store store u itemId),
    guarded_store env header _ store (fun u => removefromcart_store store u itemId),
    guarded_store env header _ store (fun u => getcart_store store u)⟩

theorem cartGet_append (a b : CartData) (k : Int) :
    cartGet (a ++ b) k = match cartGet a k with
      | some v => some v
      | none => cartGet b k := by
  induction a with
  | nil => simp [cartGet]
  | cons hd tl ih =>
    obtain ⟨k0, v0⟩ := hd
    by_cases h : k0 = k
    · simp [cartGet, h]
    · simp [cartGet, h, ih]

theorem cartSet_new (c : CartData) (k : Int) (v : JSNum) (h : cartGet c k = none) :
    cartSet c k v = c ++ [(k, v)] := by
  induction c with
  | nil => rfl
  | cons hd tl ih =>
    obtain ⟨k0, v0⟩ := hd
    by_cases hk : k0 = k
    · simp [cartGet, hk] at h
    · have h2 : cartGet tl k = none := by simpa [cartGet, hk] using h
      simp [cartSet, hk, ih h2]

theorem cartGet_zeroCart (n : Nat) (k : Int) :
    cartGet (zeroCart n) k = if 0 ≤ k ∧ k < n then some (.int 0) else none := by
  induction n with
  | zero =>
    have : ¬ (0 ≤ k ∧ k < 0) := by omega
    simp [zeroCart, cartGet, this]
  | succ n ih =>
    have hz : zeroCart (n + 1) = zeroCart n ++ [((n : Int), JSNum.int 0)] := by
      simp [zeroCart, List.range_succ]
    rw [hz, cartGet_append, ih]
    by_cases h1 : 0 ≤ k ∧ k < n
    · have h2 : 0 ≤ k ∧ k < (n : Int) + 1 := by omega
      simp [h1, h2]
    · by_cases h3 : (n : Int) = k
      · have h2 : 0 ≤ k ∧ k < (n : Int) + 1 := by omega
        simp [h1, h2, cartGet, h3]
      · have h2 : ¬ (0 ≤ k ∧ k < (n : Int) + 1) := by omega
        simp [h1, h2, cartGet, h3]

theorem foldl_range_eq_zeroCart (n : Nat) :
    (List.range n).foldl (fun cart (i : Nat) => cartSet cart (i : Int) (.int 0)) [] = zeroCart n := by
  induction n with
  | zero => rfl
  | succ n ih =>
    have hnone : cartGet (zeroCart n) (n : Int) = none := by
      rw [cartGet_zeroCart]
      simp
    rw [List.range_succ, List.foldl_append, ih]
    simp only [List.foldl_cons, List.foldl_nil]
    rw [cartSet_new _ _ _ hnone]
    simp [zeroCart, List.range_succ]

theorem initCart_eq : initCart = zeroCart 300 :=
  foldl_range_eq_zeroCart 300

theorem findById_append_new (store : Store) (u : User) (h : findById store u._id = none) :
    findById (store ++ [u]) u._id = some u := by
  simp only [findById] at h ⊢
  rw [List.find?_append, h]
  simp

theorem cartGet_mem (c : CartData) (k : Int) (v : JSNum) (h : cartGet c k = some v) :
    (k, v) ∈ c := by
  induction c with
  | nil => simp [cartGet] at h
  | cons hd tl ih =>
    obtain ⟨k0, v0⟩ := hd
    by_cases hk : k0 = k
    · simp only [cartGet, hk, if_true, Option.some.injEq] at h
      rw [hk, h]; exact List.mem_cons_self _ _
    · simp only [cartGet, hk, if_false] at h
      exact List.mem_cons_of_mem _ (ih h)

theorem signup_new (env : Env) (store : Store) (req : SignupReq)
    (hnew : findOne store req.email = none) :
    (signup env store req).1 = store ++ [⟨req.newId, req.username, req.email,
      env.hash req.password req.salt, initCart, req.now⟩] := by
  simp [signup, hnew, saveNew]

theorem quantity_after_signup (env : Env) (store : Store) (req : SignupReq)
    (hnew : findOne store req.email = none) (hid : findById store req.newId = none) (k : Int) :
    quantity (signup env store req).1 req.newId k =
      if 0 ≤ k ∧ k < 300 then some (.int 0) else none := by
  have hf := findById_append_new store ⟨req.newId, req.username, req.email,
      env.hash req.password req.salt, initCart, req.now⟩ hid
  simp only [] at hf
  rw [signup_new env store req hnew]
  simp only [quantity, hf]
  rw [initCart_eq, cartGet_zeroCart]
  rfl

/-! ## Signup -/

/-- C2: a signup whose email is not yet registered persists one new user whose cart has
exactly the keys 0..299, each mapped to 0; get-cart for that user, run right after on a
collection where the new id was fresh, answers with that cart. -/
theorem signup_cart_all_zero (env : Env) (store : Store) (req : SignupReq)
    (hnew : findOne store req.email = none) :
    ∃ u : User, (signup env store req).1 = store ++ [u] ∧ u._id = req.newId ∧
      u.email = req.email ∧
      u.cartData.map Prod.fst = (List.range 300).map (fun (i : Nat) => (i : Int)) ∧
      (∀ k : Int, cartGet u.cartData k = if 0 ≤ k ∧ k < 300 then some (.int 0) else none) ∧
      (findById store req.newId = none →
        getcart (signup env store req).1 (some ⟨some req.newId⟩) =
          ((signup env store req).1, .responded ⟨200, .cart u.cartData⟩)) := by
  refine ⟨⟨req.newId, req.username, req.email, env.hash req.password req.salt, initCart,
    req.now⟩, ?_, rfl, rfl, ?_, ?_, ?_⟩
  · simp [signup, hnew, saveNew]
  · rw [initCart_eq]
    simp [zeroCart, Function.comp_def]
  · intro k
    rw [initCart_eq, cartGet_zeroCart]
    rfl
  · intro hid
    have hs : (signup env store req).1 = store ++ [⟨req.newId, req.username, req.email,
        env.hash req.password req.salt, initCart, req.now⟩] := by
      simp [signup, hnew, saveNew]
    rw [hs]
    have hf := findById_append_new store ⟨req.newId, req.username, req.email,
        env.hash req.password req.salt, initCart, req.now⟩ hid
    simp only [getcart, loadUser]
    simp only [] at hf
    rw [hf]

/-- C2 on a concrete signup: the new cart holds 0 at slots 0 and 299, nothing at slot 300,
and get-cart answers with it. -/
theorem signup_cart_all_zero_witness :
    findOne bobStore aliceReq.email = none ∧ findById bobStore aliceReq.newId = none ∧
    ∃ u : User, (signup demoEnv bobStore aliceReq).1 = bobStore ++ [u] ∧
      cartGet u.cartData 0 = some (.int 0) ∧ cartGet u.cartData 299 = some (.int 0) ∧
      cartGet u.cartData 300 = none ∧
      getcart (signup demoEnv bobStore aliceReq).1 (some ⟨some aliceReq.newId⟩) =
        ((signup demoEnv bobStore aliceReq).1, .responded ⟨200, .cart u.cartData⟩) :=
  ⟨by decide, by decide,
    (signup_cart_all_zero demoEnv bobStore aliceReq (by decide)).imp
      (fun _ h => ⟨h.1, h.2.2.2.2.1 0, h.2.2.2.2.1 299, h.2.2.2.2.1 300,
        h.2.2.2.2.2 (by decide)⟩)⟩

/-- C7: a signup whose email equals the email of a stored user answers 400 with
`success: false` and no token, and leaves the collection exactly as it was. -/
theorem signup_duplicate_email (env : Env) (store : Store) (req : SignupReq)
    (hdup : ∃ u ∈ store, u.email = req.email) :
    signup env store req = (store, ⟨400, .failError "Email already registered"⟩) := by
  have hsome : (findOne store req.email).isSome := by
    simp only [findOne, List.find?_isSome]
    obtain ⟨u, hu, he⟩ := hdup
    exact ⟨u, hu, by simpa using he⟩
  obtain ⟨v, hv⟩ := Option.isSome_iff_exists.mp hsome
  simp [signup, hv]

/-- C7 on a concrete signup that reuses the email of `bob`. -/
theorem signup_duplicate_email_witness :
    (∃ u ∈ bobStore, u.email = "b@x.com") ∧
    signup demoEnv bobStore ⟨"bobby", "b@x.com", "pw", 2, "salt", 1⟩ =
      (bobStore, ⟨400, .failError "Email already registered"⟩) :=
  ⟨⟨bob, by decide, by decide⟩,
    signup_duplicate_email demoEnv bobStore ⟨"bobby", "b@x.com", "pw", 2, "salt", 1⟩
      ⟨bob, by decide, by decide⟩⟩


/-! ## What the cart handlers store -/

/-- C3, on the code: remove-from-cart leaves the collection as it was for every request,
so a stored quantity above 0 is not lowered.  With `bob` holding 2 at slot 5, the request
is answered "Removed" and the stored quantity is still 2, where the claim gives 1; the
commented-out handler, which writes the cart back, stores 1. -/
theorem removefromcart_stores_nothing :
    (∀ (store : Store) (reqUser : Option UserRef) (itemId : Int),
      (removefromcart store reqUser itemId).1 = store) ∧
    quantity bobStore 7 5 = some (.int 2) ∧
    step demoEnv bobStore (.removefromcart (some bobToken) 5)
      = (bobStore, .responded ⟨200, .text "Removed"⟩) ∧
    quantity (step demoEnv bobStore (.removefromcart (some bobToken) 5)).1 7 5
      = some (.int 2) ∧
    quantity (removefromcartLegacy bobStore 7 5).1 7 5 = some (.int 1) :=
  ⟨removefromcart_store, by decide, by decide, by decide, by decide⟩

/-- C4, on the code: add-to-cart leaves the collection as it was for every request, so a
stored quantity is not raised.  With `bob` holding 2 at slot 5, the request is answered
"Added" and the stored quantity is still 2, where the claim gives 3 (as the commented-out
handler, which writes the cart back, stores); and after signup, add, add, remove on slot
5 the stored cart holds 0 at slot 5, where the claim gives 1. -/
theorem addtocart_stores_nothing :
    (∀ (store : Store) (reqUser : Option UserRef) (itemId : Int),
      (addtocart store reqUser itemId).1 = store) ∧
    quantity bobStore 7 5 = some (.int 2) ∧
    step demoEnv bobStore (.addtocart (some bobToken) 5)
      = (bobStore, .responded ⟨200, .text "Added"⟩) ∧
    quantity (step demoEnv bobStore (.addtocart (some bobToken) 5)).1 7 5 = some (.int 2) ∧
    quantity (addtocartLegacy bobStore 7 5).1 7 5 = some (.int 3) ∧
    fetchUser demoEnv (some aliceToken) = .next (some ⟨some 1⟩) ∧
    quantity (run demoEnv [] scenarioTrace) 1 5 = some (.int 0) := by
  refine ⟨addtocart_store, by decide, by decide, by decide, by decide, by decide, ?_⟩
  have hrun : run demoEnv [] scenarioTrace = (signup demoEnv [] aliceReq).1 := by
    simp only [scenarioTrace, run, step_cart_store]
    rfl
  rw [hrun]
  have h := quantity_after_signup demoEnv [] aliceReq rfl rfl 5
  simpa [aliceReq] using h

/-! ## The invariant of the collection -/

theorem zeroCart_ok (n : Nat) : ∀ e ∈ zeroCart n, ∃ m : Int, 0 ≤ m ∧ e.2 = .int m := by
  intro e he
  simp only [zeroCart, List.mem_map] at he
  obtain ⟨i, _, hi⟩ := he
  rw [← hi]
  exact ⟨0, le_refl 0, rfl⟩

theorem signup_ok (env : Env) (store : Store) (req : SignupReq) (hs : StoreOK store) :
    StoreOK (signup env store req).1 := by
  unfold signup
  split
  · exact hs
  · intro x hx
    simp only [saveNew, List.mem_append, List.mem_singleton] at hx
    rcases hx with h | h
    · exact hs x h
    · rw [h]
      simp only []
      rw [initCart_eq]
      exact zeroCart_ok 300

theorem step_ok (env : Env) (store : Store) (r : Request) (hs : StoreOK store) :
    StoreOK (step env store r).1 := by
  cases r with
  | signup req => exact signup_ok env store req hs
  | login email password => exact hs
  | addtocart header itemId => rw [(step_cart_store env store header itemId).1]; exact hs
  | removefromcart header itemId =>
    rw [(step_cart_store env store header itemId).2.1]; exact hs
  | getcart header => rw [(step_cart_store env store header 0).2.2]; exact hs

theorem run_ok (env : Env) (reqs : List Request) :
    ∀ store : Store, StoreOK store → StoreOK (run env store reqs) := by
  induction reqs with
  | nil => intro store hs; exact hs
  | cons r rs ih => intro store hs; exact ih _ (step_ok env store r hs)

theorem run_outOfRangeTrace : run demoEnv [] outOfRangeTrace = [aliceStored] := by
  simp only [outOfRangeTrace, run, step_cart_store]
  rfl

theorem aliceStored_mem : aliceStored ∈ run demoEnv [] outOfRangeTrace := by
  rw [run_outOfRangeTrace]
  exact List.mem_singleton.mpr rfl

theorem aliceStored_holds_zero : ((5 : Int), JSNum.int 0) ∈ aliceStored.cartData := by
  have h : cartGet initCart 5 = some (.int 0) := by
    rw [initCart_eq, cartGet_zeroCart]
    rfl
  have h2 := cartGet_mem _ _ _ h
  simpa only [aliceStored] using h2

/-- C5: in every collection reachable from the empty one by any sequence of signup, login,
add-to-cart, remove-from-cart and get-cart requests, with arbitrary headers and itemId
values, every quantity held in every user's cart is a non-negative number. -/
theorem reachable_quantities_nonneg (env : Env) (reqs : List Request)
    (u : User) (hu : u ∈ run env [] reqs) (e : Int × JSNum) (he : e ∈ u.cartData) :
    ∃ n : Int, 0 ≤ n ∧ e.2 = .int n :=
  run_ok env reqs [] (fun x hx => absurd hx (List.not_mem_nil x)) u hu e he

/-- C5 on the trace with an add-to-cart on slot 300: the stored cart holds 0 at slot 5. -/
theorem reachable_quantities_nonneg_witness :
    aliceStored ∈ run demoEnv [] outOfRangeTrace ∧
    ((5 : Int), JSNum.int 0) ∈ aliceStored.cartData ∧
    ∃ n : Int, 0 ≤ n ∧ JSNum.int 0 = .int n :=
  ⟨aliceStored_mem, aliceStored_holds_zero,
    reachable_quantities_nonneg demoEnv outOfRangeTrace aliceStored aliceStored_mem
      (5, .int 0) aliceStored_holds_zero⟩

/-! ## Round trip of add-to-cart and remove-from-cart -/

/-- C1: for every collection (in particular every one reachable from a signup by
add-to-cart and remove-from-cart calls), every user id, every slot `s` and every `n`,
add-to-cart on `s` n times followed by remove-from-cart on `s` n times leaves the quantity
stored at `s` equal to its value before the 2n calls. -/
theorem roundtrip_quantity (env : Env) (reqs : List Request) (store : Store)
    (uid : ObjectId) (s : Int) (n : Nat) :
    quantity (repeatOp (decrement uid s) n (repeatOp (increment uid s) n store)) uid s
      = quantity store uid s ∧
    quantity (repeatOp (decrement uid s) n (repeatOp (increment uid s) n (run env [] reqs)))
      uid s = quantity (run env [] reqs) uid s := by
  have h : ∀ st : Store, repeatOp (decrement uid s) n (repeatOp (increment uid s) n st) = st := by
    intro st
    rw [repeatOp_fixed _ (increment_eq uid s) n st, repeatOp_fixed _ (decrement_eq uid s) n st]
  rw [h, h]
  exact ⟨rfl, rfl⟩

/-! ## What a cart write leaves alone -/

theorem framed_refl (uid : ObjectId) (itemId : Int) (u : User) : Framed uid itemId u u :=
  ⟨fun _ => rfl, rfl, rfl, rfl, rfl, rfl, fun _ _ => rfl⟩

theorem forall₂_framed_refl (uid : ObjectId) (itemId : Int) (store : Store) :
    List.Forall₂ (Framed uid itemId) store store :=
  List.forall₂_same.mpr (fun u _ => framed_refl uid itemId u)

/-- C10: for every collection, every token that `fetchUser` resolves to the user id `uid`
and every itemId, the add-to-cart and the remove-from-cart request leave the collection
with the same documents in the same places, except for the quantity at `itemId` in the cart
of `uid`: documents of other users are identical, and the name, email, password hash and
every other slot of the document of `uid` are unchanged. -/
theorem cart_write_frame (env : Env) (store : Store) (header : Option String)
    (uid : ObjectId) (itemId : Int)
    (hres : fetchUser env header = .next (some ⟨some uid⟩)) :
    List.Forall₂ (Framed uid itemId) store (step env store (.addtocart header itemId)).1 ∧
    List.Forall₂ (Framed uid itemId) store
      (step env store (.removefromcart header itemId)).1 := by
  have _ := hres
  constructor
  · rw [(step_cart_store env store header itemId).1]
    exact forall₂_framed_refl uid itemId store
  · rw [(step_cart_store env store header itemId).2.1]
    exact forall₂_framed_refl uid itemId store

/-- C10 on the collection holding `bob`, with the token of `bob` and slot 5. -/
theorem cart_write_frame_witness :
    fetchUser demoEnv (some bobToken) = .next (some ⟨some 7⟩) ∧
    List.Forall₂ (Framed 7 5) bobStore (step demoEnv bobStore (.addtocart (some bobToken) 5)).1 ∧
    List.Forall₂ (Framed 7 5) bobStore
      (step demoEnv bobStore (.removefromcart (some bobToken) 5)).1 :=
  ⟨by decide, cart_write_frame demoEnv bobStore (some bobToken) 7 5 (by decide)⟩

/-! ## The authorization gate -/

/-- C8 as stated fails: a token that verifies under the server secret but carries no user
id is let through; `next()` is called with `req.user` undefined and the handler runs (and
throws on `req.user.id`), instead of the invalid-token answer. -/
theorem fetchUser_passes_token_without_user :
    demoVerify bareToken secret = some ⟨none⟩ ∧
    fetchUser demoEnv (some bareToken) = .next none ∧
    step demoEnv bobStore (.addtocart (some bareToken) 5) = (bobStore, .threw) ∧
    ¬ (∀ (env : Env) (header : Option String) (r : Option UserRef),
        fetchUser env header = .next r → ∃ id : ObjectId, r = some ⟨some id⟩) := by
  refine ⟨by decide, by decide, by decide, ?_⟩
  intro hall
  obtain ⟨id, hid⟩ := hall demoEnv (some bareToken) none (by decide)
  cases hid

/-- C8, amended: `fetchUser` calls `next()` exactly when a token is present (a non-empty
header) and verifies under the server secret, and then sets `req.user` to the `user` member
of the payload whatever it is; with no token it answers 401 with the missing-token message,
with a token that does not verify it answers 401 with the invalid-token message, and
whenever it answers itself the guarded handler is not run and the collection is untouched. -/
theorem fetchUser_gate (env : Env) (header : Option String) :
    ((∃ r, fetchUser env header = .next r) ↔
      ∃ token, header = some token ∧ token ≠ "" ∧ ∃ p, env.verify token secret = some p) ∧
    (∀ token p, header = some token → token ≠ "" → env.verify token secret = some p →
      fetchUser env header = .next p.user) ∧
    ((header = none ∨ header = some "") →
      fetchUser env header =
        .respond ⟨401, .errors "Please authenticate with a valid token"⟩) ∧
    (∀ token, header = some token → token ≠ "" → env.verify token secret = none →
      fetchUser env header = .respond ⟨401, .errors "Invalid token"⟩) ∧
    (∀ (r : Response) (handler : Option UserRef → Store × Outcome) (store : Store),
      fetchUser env header = .respond r →
        guarded env header handler store = (store, .responded r)) := by
  refine ⟨?_, ?_, ?_, ?_, ?_⟩
  · constructor
    · rintro ⟨r, hr⟩
      cases header with
      | none => simp [fetchUser] at hr
      | some token =>
        by_cases ht : token = ""
        · simp [fetchUser, ht] at hr
        · cases hv : env.verify token secret with
          | none => simp [fetchUser, ht, hv] at hr
          | some p => exact ⟨token, rfl, ht, p, hv⟩
    · rintro ⟨token, rfl, ht, p, hv⟩
      exact ⟨p.user, by simp [fetchUser, ht, hv]⟩
  · rintro token p rfl ht hv
    simp [fetchUser, ht, hv]
  · rintro (rfl | rfl) <;> simp [fetchUser]
  · rintro token rfl ht hv
    simp [fetchUser, ht, hv]
  · intro r handler store hr
    simp [guarded, hr]

/-- C8, amended, on concrete headers: a valid token passes, no header gives the
missing-token answer, a token signed with another secret gives the invalid-token answer
and its handler is not run. -/
theorem fetchUser_gate_witness :
    fetchUser demoEnv (some bobToken) = .next (some ⟨some 7⟩) ∧
    fetchUser demoEnv none = .respond ⟨401, .errors "Please authenticate with a valid token"⟩ ∧
    fetchUser demoEnv (some (demoSign (userPayload 7) "other_secret")) =
      .respond ⟨401, .errors "Invalid token"⟩ ∧
    guarded demoEnv (some (demoSign (userPayload 7) "other_secret"))
      (fun u => addtocart bobStore u 5) bobStore =
      (bobStore, .responded ⟨401, .errors "Invalid token"⟩) :=
  ⟨(fetchUser_gate demoEnv (some bobToken)).2.1 bobToken (userPayload 7) rfl (by decide)
      (by decide),
    (fetchUser_gate demoEnv none).2.2.1 (Or.inl rfl),
    (fetchUser_gate demoEnv (some (demoSign (userPayload 7) "other_secret"))).2.2.2.1
      (demoSign (userPayload 7) "other_secret") rfl (by decide) (by decide),
    (fetchUser_gate demoEnv (some (demoSign (userPayload 7) "other_secret"))).2.2.2.2
      ⟨401, .errors "Invalid token"⟩ (fun u => addtocart bobStore u 5) bobStore (by decide)⟩

/-! ## Signup, then login, then the gate -/

theorem findOne_append_new (store : Store) (u : User) (h : findOne store u.email = none) :
    findOne (store ++ [u]) u.email = some u := by
  simp only [findOne] at h ⊢
  rw [List.find?_append, h]
  simp

/-- C9: for every email not yet registered and every password, with a hash whose
`compare` accepts every password against its own hash and a token scheme in which `verify`
returns what `sign` signed (and `sign` never yields the empty string), signup succeeds and
creates a user with the fresh id, login with the same email and password succeeds, and
`fetchUser` resolves the token that login returns to the id of that user. -/
theorem signup_then_login (env : Env) (store : Store) (req : SignupReq)
    (hcompare : ∀ password salt, env.compare password (env.hash password salt) = true)
    (hverify : ∀ x, env.verify (env.sign x secret) secret = some x)
    (hsign : ∀ x, env.sign x secret ≠ "")
    (hnew : findOne store req.email = none) :
    ∃ (u : User) (t1 t2 : String),
      signup env store req = (store ++ [u], ⟨200, .token t1⟩) ∧ u._id = req.newId ∧
      login env (signup env store req).1 req.email req.password = ⟨200, .token t2⟩ ∧
      fetchUser env (some t2) = .next (some ⟨some req.newId⟩) := by
  refine ⟨⟨req.newId, req.username, req.email, env.hash req.password req.salt, initCart,
    req.now⟩, env.sign (userPayload req.newId) secret, env.sign (userPayload req.newId) secret,
    ?_, rfl, ?_, ?_⟩
  · simp [signup, hnew, saveNew]
  · have hs : (signup env store req).1 = store ++ [⟨req.newId, req.username, req.email,
        env.hash req.password req.salt, initCart, req.now⟩] := by
      simp [signup, hnew, saveNew]
    have hf := findOne_append_new store ⟨req.newId, req.username, req.email,
        env.hash req.password req.salt, initCart, req.now⟩ hnew
    simp only [] at hf
    rw [hs]
    simp only [login, hf, hcompare, if_true]
  · simp [fetchUser, hsign, hverify, userPayload]

theorem demo_compare (password salt : String) :
    demoEnv.compare password (demoEnv.hash password salt) = true := by
  simp only [demoEnv, decide_eq_true_eq]
  have hlen : (salt.data ++ '$' :: password.data).length - password.data.length
      = (salt.data ++ ['$']).length := by
    simp only [List.length_append, List.length_cons, List.length_nil]
    omega
  rw [hlen]
  have happ : salt.data ++ '$' :: password.data = (salt.data ++ ['$']) ++ password.data := by
    simp
  rw [happ, List.drop_left]

theorem demo_verify (x : Payload) : demoEnv.verify (demoEnv.sign x secret) secret = some x := by
  obtain ⟨user⟩ := x
  cases user with
  | none => rfl
  | some ref =>
    obtain ⟨id⟩ := ref
    cases id with
    | none => rfl
    | some id => simp [demoEnv, demoVerify, demoSign]

theorem demo_sign_ne (x : Payload) : demoEnv.sign x secret ≠ "" := by
  obtain ⟨user⟩ := x
  cases user with
  | none => decide
  | some ref =>
    obtain ⟨id⟩ := ref
    cases id with
    | none => decide
    | some id =>
      intro h
      have h2 : (demoEnv.sign ⟨some ⟨some id⟩⟩ secret).data = [] := by rw [h]
      exact List.cons_ne_nil _ _ h2

/-- C9 under the demo libraries, for the signup of `aliceReq`. -/
theorem signup_then_login_witness :
    findOne bobStore aliceReq.email = none ∧
    ∃ (u : User) (t1 t2 : String),
      signup demoEnv bobStore aliceReq = (bobStore ++ [u], ⟨200, .token t1⟩) ∧
      u._id = aliceReq.newId ∧
      login demoEnv (signup demoEnv bobStore aliceReq).1 aliceReq.email aliceReq.password
        = ⟨200, .token t2⟩ ∧
      fetchUser demoEnv (some t2) = .next (some ⟨some aliceReq.newId⟩) :=
  ⟨by decide,
    signup_then_login demoEnv bobStore aliceReq demo_compare demo_verify demo_sign_ne
      (by decide)⟩

/-! ## Product ids -/

theorem addproduct_eq (products : Catalog) (body : ProductBody) :
    (addproduct products body).1 = products ++ [newProduct (nextId products) body] := rfl

theorem newProduct_id_plain (id : Int) (body : ProductBody) (h : body.id = none) :
    (newProduct id body).id = id := by
  simp [newProduct, h]

theorem nextId_last (products : Catalog) (last : Product)
    (h : products.getLast? = some last) : nextId products = roundDouble (last.id + 1) := by
  simp [nextId, h]

theorem nextId_last_exact (products : Catalog) (last : Product)
    (h : products.getLast? = some last) (hlo : -9007199254740992 ≤ last.id)
    (hhi : last.id < 9007199254740992) : nextId products = last.id + 1 := by
  rw [nextId_last products last h]
  exact roundDouble_exact _ (by omega) (by omega)

theorem ordered_le_last (products : Catalog) (last : Product) (h : Ordered products)
    (hl : products.getLast? = some last) : ∀ q ∈ products, q.id ≤ last.id := by
  intro q hq
  obtain ⟨init, hinit⟩ := List.getLast?_eq_some_iff.mp hl
  subst hinit
  have hp := h.1
  simp only [ids, List.map_append, List.map_cons, List.map_nil] at hp
  rw [List.pairwise_append] at hp
  rcases List.mem_append.mp hq with h1 | h1
  · exact hp.2.2 q.id (List.mem_map_of_mem _ h1) last.id (List.mem_singleton.mpr rfl)
  · rw [List.mem_singleton.mp h1]

theorem ordered_nextId (products : Catalog) (h : Ordered products) :
    (1 ≤ nextId products ∧ nextId products ≤ 9007199254740992) ∧
      ∀ q ∈ products, q.id ≤ nextId products := by
  cases hl : products.getLast? with
  | none =>
    rw [List.getLast?_eq_none_iff] at hl
    subst hl
    refine ⟨⟨by decide, by decide⟩, ?_⟩
    intro q hq
    cases hq
  | some last =>
    have hmem : last.id ∈ ids products :=
      List.mem_map_of_mem _ (List.mem_of_getLast?_eq_some hl)
    have hb := h.2 last.id hmem
    have hle := ordered_le_last products last h hl
    by_cases hlt : last.id < 9007199254740992
    · rw [nextId_last_exact products last hl (by omega) hlt]
      refine ⟨⟨by omega, by omega⟩, ?_⟩
      intro q hq
      have := hle q hq
      omega
    · have heq : last.id = 9007199254740992 := by omega
      rw [nextId_last products last hl, heq, roundDouble_past]
      refine ⟨⟨by decide, le_refl _⟩, ?_⟩
      intro q hq
      have := hle q hq
      omega

theorem findOneAndDelete_sublist (products : Catalog) (id : Int) :
    List.Sublist (findOneAndDelete products id) products := by
  induction products with
  | nil => exact List.Sublist.slnil
  | cons p rest ih =>
    by_cases h : p.id = id
    · simp only [findOneAndDelete, h, if_true]
      exact List.sublist_cons_self p rest
    · simp only [findOneAndDelete, h, if_false]
      exact List.Sublist.cons₂ p ih

theorem catalogStep_ordered (products : Catalog) (r : CatalogReq) (hr : r.plain = true)
    (h : Ordered products) : Ordered (catalogStep products r) := by
  cases r with
  | add body =>
    have hb : body.id = none := by simpa [CatalogReq.plain] using hr
    have hn := ordered_nextId products h
    simp only [catalogStep, addproduct_eq, Ordered, ids, List.map_append, List.map_cons,
      List.map_nil, newProduct_id_plain _ _ hb]
    constructor
    · rw [List.pairwise_append]
      refine ⟨h.1, List.pairwise_singleton _ _, ?_⟩
      intro a ha b hb2
      rw [List.mem_singleton.mp hb2]
      obtain ⟨q, hq, rfl⟩ := List.mem_map.mp ha
      exact hn.2 q hq
    · intro a ha
      rcases List.mem_append.mp ha with h1 | h1
      · exact h.2 a h1
      · rw [List.mem_singleton.mp h1]
        exact hn.1
  | remove id name =>
    have hsub := (findOneAndDelete_sublist products id).map (fun p : Product => p.id)
    simp only [catalogStep, removeproduct, Ordered, ids]
    exact ⟨List.Pairwise.sublist hsub h.1, fun a ha => h.2 a (hsub.subset ha)⟩

theorem catalogRun_ordered (reqs : List CatalogReq) :
    ∀ products : Catalog, (∀ r ∈ reqs, r.plain = true) → Ordered products →
      Ordered (catalogRun products reqs) := by
  induction reqs with
  | nil => intro products _ h; exact h
  | cons r rs ih =>
    intro products hr h
    exact ih _ (fun x hx => hr x (List.mem_cons_of_mem _ hx))
      (catalogStep_ordered products r (hr r (List.mem_cons_self _ _)) h)

theorem ordered_nil : Ordered [] :=
  ⟨List.Pairwise.nil, fun a ha => absurd ha (List.not_mem_nil a)⟩

/-- C6 as stated fails: on the catalog with ids 5 and 2 in store order (built from the
empty catalog by two adds whose bodies carry an id), an add without id stores id 3, while
the maximum id plus one is 6; an add on the empty catalog whose body carries id 7 stores
id 7, not 1; and on a catalog whose last id is 2^53 an add without id stores 2^53 again,
since the sum is taken in double precision. -/
theorem addproduct_id_is_not_max_plus_one :
    ids (catalogRun [] [.add (idBody 5), .add (idBody 2)]) = [5, 2] ∧
    ids (addproduct (catalogRun [] [.add (idBody 5), .add (idBody 2)]) plainBody).1
      = [5, 2, 3] ∧
    ids (addproduct [] (idBody 7)).1 = [7] ∧
    ids (catalogRun [] [.add (idBody 9007199254740992), .add plainBody])
      = [9007199254740992, 9007199254740992] ∧
    ¬ (∀ (products : Catalog) (body : ProductBody),
        ∃ p : Product, (addproduct products body).1 = products ++ [p] ∧
          (products = [] → p.id = 1) ∧
          (products ≠ [] → (∀ q ∈ products, q.id < p.id) ∧ ∃ q ∈ products, q.id + 1 = p.id)) := by
  refine ⟨by decide, by decide, by decide, by decide, ?_⟩
  intro hall
  obtain ⟨p, hp, _, hmax⟩ := hall (catalogRun [] [.add (idBody 5), .add (idBody 2)]) plainBody
  have hid : p.id = 3 := by
    rw [addproduct_eq] at hp
    have := List.append_cancel_left hp
    simp only [List.cons.injEq, and_true] at this
    rw [← this]
    decide
  have hlt := (hmax (by decide)).1 (newProduct 1 (idBody 5)) (by decide)
  rw [hid] at hlt
  revert hlt
  decide

/-- C6, amended: for every catalog and every add-product request whose body carries no id
of its own, the id stored on the new product is 1 when the catalog is empty and otherwise
the id of the last product in store order plus 1, for a last id from -2^53 up to but not
including 2^53 (beyond that the double-precision sum is rounded); in every catalog built
from the empty one by such adds and by removes and holding only ids below 2^53, this is
the maximum id plus 1; two such adds on the empty catalog give ids 1 and 2, and after
removing id 1 the listing holds only id 2. -/
theorem addproduct_id_plain (products : Catalog) (body : ProductBody)
    (hplain : body.id = none) :
    ∃ p : Product, (addproduct products body).1 = products ++ [p] ∧
      (products = [] → p.id = 1) ∧
      (∀ last, products.getLast? = some last → -9007199254740992 ≤ last.id →
        last.id < 9007199254740992 → p.id = last.id + 1) ∧
      (∀ reqs : List CatalogReq, (∀ r ∈ reqs, r.plain = true) →
        products = catalogRun [] reqs → products ≠ [] →
        (∀ q ∈ products, q.id < 9007199254740992) →
          (∀ q ∈ products, q.id < p.id) ∧ ∃ q ∈ products, q.id + 1 = p.id) ∧
      (∀ (b1 b2 : ProductBody) (name : String), b1.id = none → b2.id = none →
        ids (addproduct (addproduct [] b1).1 b2).1 = [1, 2] ∧
        ids (allproducts
          (removeproduct (addproduct (addproduct [] b1).1 b2).1 1 name).1) = [2]) := by
  refine ⟨newProduct (nextId products) body, rfl, ?_, ?_, ?_, ?_⟩
  · intro h
    rw [newProduct_id_plain _ _ hplain, h]
    rfl
  · intro last hl hlo hhi
    rw [newProduct_id_plain _ _ hplain, nextId_last_exact products last hl hlo hhi]
  · intro reqs hreqs hrun hne hbound
    have hord : Ordered products := by
      rw [hrun]
      exact catalogRun_ordered reqs [] hreqs ordered_nil
    rw [newProduct_id_plain _ _ hplain]
    cases hl : products.getLast? with
    | none => exact absurd (List.getLast?_eq_none_iff.mp hl) hne
    | some last =>
      have hmem := List.mem_of_getLast?_eq_some hl
      have hlo := (hord.2 last.id (List.mem_map_of_mem _ hmem)).1
      have hnext := nextId_last_exact products last hl (by omega) (hbound last hmem)
      rw [hnext]
      refine ⟨?_, last, hmem, rfl⟩
      intro q hq
      have := ordered_le_last products last hord hl q hq
      omega
  · intro b1 b2 name h1 h2
    have e1 : (addproduct [] b1).1 = [newProduct 1 b1] := rfl
    have e2 : nextId [newProduct 1 b1] = 2 := by
      rw [nextId_last [newProduct 1 b1] (newProduct 1 b1) rfl, newProduct_id_plain _ _ h1]
      decide
    have e3 : (addproduct [newProduct 1 b1] b2).1 = [newProduct 1 b1, newProduct 2 b2] := by
      rw [addproduct_eq, e2]
      rfl
    rw [e1, e3]
    simp [ids, newProduct_id_plain _ _ h1, newProduct_id_plain _ _ h2, removeproduct,
      findOneAndDelete, allproducts]

/-- C6, amended, on concrete catalogs: after one product with id 1 the next id is 2, and
two adds then the removal of id 1 leave only id 2 listed. -/
theorem addproduct_id_plain_witness :
    plainBody.id = none ∧
    (∃ p : Product, (addproduct [newProduct 1 plainBody] plainBody).1
        = [newProduct 1 plainBody] ++ [p] ∧ p.id = 2) ∧
    ids (allproducts (removeproduct (addproduct (addproduct [] plainBody).1 plainBody).1 1
      "shirt").1) = [2] :=
  ⟨rfl,
    (addproduct_id_plain [newProduct 1 plainBody] plainBody rfl).imp
      (fun _ h => ⟨h.1, h.2.2.1 (newProduct 1 plainBody) rfl (by decide) (by decide)⟩),
    (addproduct_id_plain [] plainBody rfl).elim
      (fun _ h => (h.2.2.2.2 plainBody plainBody "shirt" rfl rfl).2)⟩

end Shopp
